import Mathlib

/-!
Verification of the target-validation and command-execution core of the
ping-tool backend (src/server.js).

The validator and the two HTTP handlers are shallowly embedded as pure
Lean functions. Character classes from the regular expressions are
expressed through code points (Char.toNat): 45 is the hyphen, 46 the dot,
48-57 the digits, 65-90 the upper-case letters, 97-122 the lower-case
letters. Strings are handled through their character lists.
-/

set_option autoImplicit false

/-! ### Character classes of the validation regexes (src/server.js lines 28-29) -/

/-- The character class [0-9]. -/
def isDigit (c : Char) : Bool :=
  48 ≤ c.toNat && c.toNat ≤ 57

/-- The character class [a-zA-Z0-9]. -/
def isAlnum (c : Char) : Bool :=
  (97 ≤ c.toNat && c.toNat ≤ 122) || (65 ≤ c.toNat && c.toNat ≤ 90) || isDigit c

/-- The character class [a-zA-Z0-9-]. -/
def isAlnumHyphen (c : Char) : Bool :=
  isAlnum c || c.toNat == 45

/-! ### Splitting a character list at the dots

Both anchored regexes of the validator are of the shape piece(\.piece)*
or (piece\.)..piece where no piece can contain a dot, so a string matches
exactly when its (unique) decomposition at the dots consists of matching
pieces.  splitDots computes that decomposition. -/

/-- Decompose a character list at every dot. The result is always
nonempty and joining it back with dots restores the input. -/
def splitDots : List Char → List (List Char)
  | [] => [[]]
  | c :: rest =>
    if c = '.' then [] :: splitDots rest
    else
      match splitDots rest with
      | [] => [[c]]
      | p :: ps => (c :: p) :: ps

/-- Join pieces back together with a dot between consecutive pieces. -/
def joinDots : List (List Char) → List Char
  | [] => []
  | [l] => l
  | l :: ls => l ++ '.' :: joinDots ls

/-! ### The two regexes of validateTarget (src/server.js lines 28-29) -/

/-- One label of the hostname regex: the anchored fragment
[a-zA-Z0-9]([a-zA-Z0-9-]\x7b0,61\x7d[a-zA-Z0-9])? — a leading
alphanumeric character, optionally followed by up to 61 characters from
[a-zA-Z0-9-] and a final alphanumeric character. -/
def labelMatch : List Char → Bool
  | [] => false
  | c :: rest =>
    isAlnum c &&
      (rest.isEmpty ||
        (decide (rest.length ≤ 62) && rest.dropLast.all isAlnumHyphen &&
          (match rest.getLast? with
           | some d => isAlnum d
           | none => false)))

/-- The anchored hostname regex domainRegex: label(\.label)*. -/
def domainTest (cs : List Char) : Bool :=
  (splitDots cs).all labelMatch

/-- One octet of the IPv4 regex: 25[0-5]|2[0-4][0-9]|[01]?[0-9][0-9]?.
The two optional groups of the last alternative are resolved by length:
one digit, two digits (either [01] plus a digit or a digit plus a digit),
or [01] followed by two digits. -/
def octetMatch (l : List Char) : Bool :=
  (match l with
   | [a, b, c] => a.toNat == 50 && b.toNat == 53 && (48 ≤ c.toNat && c.toNat ≤ 53)
   | _ => false) ||
  (match l with
   | [a, b, c] => a.toNat == 50 && (48 ≤ b.toNat && b.toNat ≤ 52) && isDigit c
   | _ => false) ||
  (match l with
   | [a] => isDigit a
   | [a, b] => ((a.toNat == 48 || a.toNat == 49) && isDigit b) || (isDigit a && isDigit b)
   | [a, b, c] => (a.toNat == 48 || a.toNat == 49) && isDigit b && isDigit c
   | _ => false)

/-- The anchored IPv4 regex ipRegex: (octet\.)..(three times)..octet,
that is exactly four octets separated by dots. -/
def ipTest (cs : List Char) : Bool :=
  match splitDots cs with
  | [a, b, c, d] => octetMatch a && octetMatch b && octetMatch c && octetMatch d
  | _ => false

/-! ### JavaScript values and validateTarget (src/server.js lines 24-32) -/

/-- The JavaScript values that can reach validateTarget through the
request body. Numbers are modelled as integers; objects and arrays are
collapsed to one opaque constructor since validateTarget only inspects
truthiness and the typeof tag. -/
inductive JSValue where
  | undefined
  | null
  | boolV (b : Bool)
  | numV (n : Int)
  | strV (s : String)
  | objV
deriving DecidableEq

/-- JavaScript truthiness of a value: undefined, null, false, 0 and the
empty string are falsy, every object is truthy. -/
def jsTruthy : JSValue → Bool
  | .undefined => false
  | .null => false
  | .boolV b => b
  | .numV n => !(n == 0)
  | .strV s => !(s.data.isEmpty)
  | .objV => true

/-- The typeof target === string check. -/
def isStringV : JSValue → Bool
  | .strV _ => true
  | _ => false

/-- The string content of a value, for use after the type check. -/
def asString : JSValue → String
  | .strV s => s
  | _ => ""

/-- validateTarget (src/server.js lines 24-32): reject falsy or
non-string input, then accept exactly when domainRegex or ipRegex
matches the whole string. -/
def validateTarget (target : JSValue) : Bool :=
  if !(jsTruthy target) || !(isStringV target) then false
  else domainTest (asString target).data || ipTest (asString target).data

/-! ### Declarative grammars, written from the wording of the spec

These definitions follow the words of the specification, not the source
regexes, so that claim C1 compares the two. -/

/-- Spec wording: one hostname label has 1 to 63 characters, all
alphanumeric or hyphen, and a hyphen is never the first or the last
character of the label. -/
def specLabel (l : List Char) : Prop :=
  1 ≤ l.length ∧ l.length ≤ 63 ∧ (∀ c ∈ l, isAlnumHyphen c = true) ∧
  (∀ c, l.head? = some c → isAlnum c = true) ∧
  (∀ c, l.getLast? = some c → isAlnum c = true)

/-- Spec wording of the hostname grammar: the whole string is a
dot-separated sequence of labels. -/
def specHostname (cs : List Char) : Prop :=
  ∃ ls : List (List Char), ls ≠ [] ∧ cs = joinDots ls ∧ ∀ l ∈ ls, specLabel l

/-- The decimal value of a digit string. -/
def digitsVal (l : List Char) : Nat :=
  l.foldl (fun n c => 10 * n + (c.toNat - 48)) 0

/-- Spec wording: one IPv4 octet is a decimal number 0-255 written with
one to three digits. -/
def specOctet (l : List Char) : Prop :=
  (∀ c ∈ l, isDigit c = true) ∧ 1 ≤ l.length ∧ l.length ≤ 3 ∧ digitsVal l ≤ 255

/-- Spec wording of the IPv4 grammar: four dot-separated octets. -/
def specIPv4 (cs : List Char) : Prop :=
  ∃ a b c d : List Char, cs = joinDots [a, b, c, d] ∧
    specOctet a ∧ specOctet b ∧ specOctet c ∧ specOctet d

/-- The character set of the spec rationale for claim C2: letters,
digits, dot and hyphen. -/
def safeChar (c : Char) : Bool :=
  isAlnum c || c.toNat == 46 || c.toNat == 45

/-! ### Command Runner model (src/server.js lines 35-54) -/

/-- How the process behind one command would behave if left alone:
whether spawning fails, how long the process runs before it would exit
on its own, its exit code, and what it writes to the two streams. -/
structure ProcessBehavior where
  spawnError : Option String
  duration : Nat
  exitCode : Nat
  stdout : String
  stderr : String
deriving DecidableEq

/-- The outcome that the exec callback observes: the error message when
exec reports a failure, and the captured streams. -/
structure ExecResult where
  error : Option String
  stdout : String
  stderr : String
deriving DecidableEq

/-- Modelled from the spec: the child-process executor behind
child_process.exec is not part of src/. Per the Command Runner contract
of the spec, the command is spawned through a shell under a hard
wall-clock deadline; a process that has not exited by the deadline is
forcibly terminated and surfaces as an error whose message references
the timeout; a spawn failure or a non-zero exit also surfaces as an
error; otherwise the callback receives no error and the captured
streams. -/
def execOutcome (p : ProcessBehavior) (command : String) (timeout : Nat) : ExecResult :=
  match p.spawnError with
  | some m => ⟨some m, "", ""⟩
  | none =>
    if timeout < p.duration then
      ⟨some ("Command timed out: " ++ command), "", ""⟩
    else if p.exitCode ≠ 0 then
      ⟨some ("Command failed: " ++ command), p.stdout, p.stderr⟩
    else
      ⟨none, p.stdout, p.stderr⟩

/-- The uniform JSON envelope of the responses: success flag, optional
output, optional error message, optional timestamp. -/
structure JsonBody where
  success : Bool
  output : Option String
  error : Option String
  timestamp : Option String
deriving DecidableEq

/-- runCommand (src/server.js lines 35-54): run the command through exec
with the given timeout; on an exec error reject with a failure envelope
carrying the error message, otherwise resolve with a success envelope
whose output is stdout when nonempty and stderr otherwise. The promise
is modelled as Except: Except.error is a rejected promise, Except.ok a
resolved one. The parameter now stands for the value of
new Date().toISOString() at completion time; behavior gives the process
behavior of each command. In the source timeout defaults to 30000 at
the call sites that omit it. -/
def runCommand (behavior : String → ProcessBehavior) (command : String)
    (timeout : Nat) (now : String) : Except JsonBody JsonBody :=
  let r := execOutcome (behavior command) command timeout
  match r.error with
  | some msg => Except.error ⟨false, none, some msg, some now⟩
  | none =>
    Except.ok ⟨true, some (if r.stdout = "" then r.stderr else r.stdout), none, some now⟩

/-! ### HTTP handlers (src/server.js lines 66-113) -/

/-- An HTTP response: status code and JSON body. -/
structure Response where
  status : Nat
  body : JsonBody
deriving DecidableEq

/-- The 400 body sent when validateTarget rejects: success false and the
message Invalid target. Please provide a valid domain or IP address. -/
def invalidTargetBody : JsonBody :=
  ⟨false, none, some "Invalid target. Please provide a valid domain or IP address.", none⟩

/-- The ping command line (src/server.js lines 78-81). -/
def pingCommand (isWindows : Bool) (t : String) : String :=
  if isWindows then "ping -n 4 " ++ t else "ping -c 4 " ++ t

/-- The traceroute command line (src/server.js lines 103-106). -/
def tracerouteCommand (isWindows : Bool) (t : String) : String :=
  if isWindows then "tracert " ++ t else "traceroute " ++ t

/-- The POST /api/ping handler (src/server.js lines 66-88): reject with
400 when validateTarget fails, otherwise build the platform ping command,
await runCommand with the default 30000 ms timeout, answer 200 with the
resolved envelope or 500 with the rejected one. isWindows is the value
of process.platform === win32, a constant of the running process that
the handler reads on every call. Besides the response, the handler
returns the list of commands handed to the Command Runner together with
their timeouts, so that what was executed is part of the model. -/
def pingHandler (isWindows : Bool) (target : JSValue)
    (behavior : String → ProcessBehavior) (now : String) :
    Response × List (String × Nat) :=
  if !(validateTarget target) then (⟨400, invalidTargetBody⟩, [])
  else
    let command := pingCommand isWindows (asString target)
    match runCommand behavior command 30000 now with
    | Except.ok body => (⟨200, body⟩, [(command, 30000)])
    | Except.error body => (⟨500, body⟩, [(command, 30000)])

/-- The POST /api/traceroute handler (src/server.js lines 91-113): same
contract with the traceroute command and a 60000 ms timeout. -/
def tracerouteHandler (isWindows : Bool) (target : JSValue)
    (behavior : String → ProcessBehavior) (now : String) :
    Response × List (String × Nat) :=
  if !(validateTarget target) then (⟨400, invalidTargetBody⟩, [])
  else
    let command := tracerouteCommand isWindows (asString target)
    match runCommand behavior command 60000 now with
    | Except.ok body => (⟨200, body⟩, [(command, 60000)])
    | Except.error body => (⟨500, body⟩, [(command, 60000)])

/-! ### Basic facts about splitDots and joinDots -/

theorem splitDots_ne_nil (cs : List Char) : splitDots cs ≠ [] := by
  induction cs with
  | nil => simp [splitDots]
  | cons a cs ih =>
    by_cases ha : a = '.'
    · simp [splitDots, ha]
    · simp only [splitDots, if_neg ha]
      cases h : splitDots cs with
      | nil => simp
      | cons p ps => simp

theorem joinDots_cons_cons (l m : List Char) (ms : List (List Char)) :
    joinDots (l :: m :: ms) = l ++ '.' :: joinDots (m :: ms) := rfl

theorem joinDots_splitDots (cs : List Char) : joinDots (splitDots cs) = cs := by
  induction cs with
  | nil => rfl
  | cons a cs ih =>
    by_cases ha : a = '.'
    · subst ha
      cases h : splitDots cs with
      | nil => exact absurd h (splitDots_ne_nil cs)
      | cons p ps =>
        rw [h] at ih
        simp [splitDots, h, joinDots_cons_cons, ih]
    · simp only [splitDots, if_neg ha]
      cases h : splitDots cs with
      | nil => exact absurd h (splitDots_ne_nil cs)
      | cons p ps =>
        rw [h] at ih
        cases ps with
        | nil => simpa [joinDots] using congrArg (a :: ·) ih
        | cons q qs =>
          rw [joinDots_cons_cons] at ih ⊢
          simpa [List.cons_append] using congrArg (a :: ·) ih

theorem splitDots_no_dot (l : List Char) (h : ∀ c ∈ l, c ≠ '.') :
    splitDots l = [l] := by
  induction l with
  | nil => rfl
  | cons a l ih =>
    have ha : a ≠ '.' := h a (by simp)
    have hl := ih (fun c hc => h c (by simp [hc]))
    simp [splitDots, ha, hl]

theorem splitDots_append_dot (l cs : List Char) (h : ∀ c ∈ l, c ≠ '.') :
    splitDots (l ++ '.' :: cs) = l :: splitDots cs := by
  induction l with
  | nil => simp [splitDots]
  | cons a l ih =>
    have ha : a ≠ '.' := h a (by simp)
    have hl := ih (fun c hc => h c (by simp [hc]))
    simp [splitDots, ha, hl]

theorem splitDots_joinDots (ls : List (List Char)) (hne : ls ≠ [])
    (h : ∀ l ∈ ls, ∀ c ∈ l, c ≠ '.') : splitDots (joinDots ls) = ls := by
  induction ls with
  | nil => exact absurd rfl hne
  | cons l ls ih =>
    cases ls with
    | nil => exact splitDots_no_dot l (h l (by simp))
    | cons m ms =>
      rw [joinDots_cons_cons, splitDots_append_dot l _ (h l (by simp)),
        ih (by simp) (fun l' hl' => h l' (List.mem_cons_of_mem _ hl'))]

theorem mem_joinDots (ls : List (List Char)) :
    ∀ c : Char, c ∈ joinDots ls → c = '.' ∨ ∃ l ∈ ls, c ∈ l := by
  induction ls with
  | nil => intro c hc; simp [joinDots] at hc
  | cons l ls ih =>
    intro c hc
    cases ls with
    | nil => exact Or.inr ⟨l, by simp, hc⟩
    | cons m ms =>
      rw [joinDots_cons_cons] at hc
      rcases List.mem_append.1 hc with h1 | h2
      · exact Or.inr ⟨l, by simp, h1⟩
      · rcases List.mem_cons.1 h2 with h3 | h4
        · exact Or.inl h3
        · rcases ih c h4 with h5 | ⟨l', hl', hcl⟩
          · exact Or.inl h5
          · exact Or.inr ⟨l', by simp [hl'], hcl⟩

/-! ### The regex pieces agree with the declarative grammar pieces -/

theorem eq_nil_or_concat_aux {α : Type} (l : List α) :
    l = [] ∨ ∃ t a, l = t ++ [a] := by
  induction l with
  | nil => exact Or.inl rfl
  | cons x xs ih =>
    rcases ih with rfl | ⟨t, a, rfl⟩
    · exact Or.inr ⟨[], x, rfl⟩
    · exact Or.inr ⟨x :: t, a, rfl⟩

theorem isAlnum_isAlnumHyphen {c : Char} (h : isAlnum c = true) :
    isAlnumHyphen c = true := by
  simp [isAlnumHyphen, h]

theorem isDigit_isAlnum {c : Char} (h : isDigit c = true) :
    isAlnum c = true := by
  simp [isAlnum, h]

theorem isAlnumHyphen_ne_dot {c : Char} (h : isAlnumHyphen c = true) :
    c ≠ '.' := by
  intro hc
  subst hc
  exact absurd h (by decide)

theorem labelMatch_iff (l : List Char) : labelMatch l = true ↔ specLabel l := by
  cases l with
  | nil =>
    constructor
    · intro h; exact absurd h (by decide)
    · intro h; exact absurd h.1 (by simp)
  | cons a rest =>
    rcases eq_nil_or_concat_aux rest with rfl | ⟨mid, d, rfl⟩
    · constructor
      · intro h
        have ha : isAlnum a = true := by
          simpa [labelMatch] using h
        refine ⟨by simp, by simp, ?_, ?_, ?_⟩
        · intro c hc
          rcases List.mem_singleton.1 hc with rfl
          exact isAlnum_isAlnumHyphen ha
        · intro c hc
          cases (Option.some.inj hc); exact ha
        · intro c hc
          cases (Option.some.inj hc); exact ha
      · rintro ⟨-, -, -, hhead, -⟩
        have ha : isAlnum a = true := hhead a rfl
        simp [labelMatch, ha]
    · have hdl : (mid ++ [d]).dropLast = mid := List.dropLast_concat
      have hgl : (mid ++ [d]).getLast? = some d := List.getLast?_concat mid
      have hglc : (a :: (mid ++ [d])).getLast? = some d := by
        rw [← List.cons_append]
        exact List.getLast?_concat (a :: mid)
      constructor
      · intro h
        simp only [labelMatch, hdl, hgl, List.isEmpty_eq_true, Bool.and_eq_true,
          Bool.or_eq_true, decide_eq_true_eq, List.all_eq_true,
          List.length_append, List.length_cons, List.length_nil] at h
        rcases h with ⟨ha, hrest⟩
        rcases hrest with habs | ⟨⟨hlen, hmid⟩, hd⟩
        · exact absurd habs (by simp)
        · refine ⟨by simp, ?_, ?_, ?_, ?_⟩
          · simp only [List.length_cons, List.length_append, List.length_nil]
            omega
          · intro c hc
            rcases List.mem_cons.1 hc with rfl | hc2
            · exact isAlnum_isAlnumHyphen ha
            · rcases List.mem_append.1 hc2 with hc3 | hc4
              · exact hmid c hc3
              · rcases List.mem_singleton.1 hc4 with rfl
                exact isAlnum_isAlnumHyphen hd
          · intro c hc
            cases (Option.some.inj hc); exact ha
          · intro c hc
            rw [hglc] at hc
            cases (Option.some.inj hc); exact hd
      · rintro ⟨-, hlen, hmem, hhead, hlast⟩
        have ha : isAlnum a = true := hhead a rfl
        have hd : isAlnum d = true := hlast d hglc
        have hmid : ∀ c ∈ mid, isAlnumHyphen c = true := by
          intro c hc
          exact hmem c (List.mem_cons_of_mem _ (List.mem_append.2 (Or.inl hc)))
        have hlen2 : mid.length + 1 ≤ 62 := by
          simp only [List.length_cons, List.length_append, List.length_nil] at hlen
          omega
        simp only [labelMatch, hdl, hgl, List.isEmpty_eq_true, Bool.and_eq_true,
          Bool.or_eq_true, decide_eq_true_eq, List.all_eq_true,
          List.length_append, List.length_cons, List.length_nil]
        exact ⟨ha, Or.inr ⟨⟨by omega, hmid⟩, hd⟩⟩

theorem octetMatch_iff (l : List Char) : octetMatch l = true ↔ specOctet l := by
  rcases l with - | ⟨a, - | ⟨b, - | ⟨c, - | ⟨e, rest⟩⟩⟩⟩
  · constructor
    · intro h; exact absurd h (by decide)
    · rintro ⟨-, h1, -⟩; exact absurd h1 (by simp)
  · simp only [octetMatch, specOctet, digitsVal, isDigit, List.foldl,
      Bool.or_eq_true, Bool.and_eq_true, decide_eq_true_eq, beq_iff_eq,
      List.forall_mem_cons, List.not_mem_nil, false_implies, implies_true,
      and_true, List.length_cons, List.length_nil, Bool.false_or]
    omega
  · simp only [octetMatch, specOctet, digitsVal, isDigit, List.foldl,
      Bool.or_eq_true, Bool.and_eq_true, decide_eq_true_eq, beq_iff_eq,
      List.forall_mem_cons, List.not_mem_nil, false_implies, implies_true,
      and_true, List.length_cons, List.length_nil, Bool.false_or]
    omega
  · simp only [octetMatch, specOctet, digitsVal, isDigit, List.foldl,
      Bool.or_eq_true, Bool.and_eq_true, decide_eq_true_eq, beq_iff_eq,
      List.forall_mem_cons, List.not_mem_nil, false_implies, implies_true,
      and_true, List.length_cons, List.length_nil, Bool.false_or]
    omega
  · simp only [octetMatch, specOctet, List.length_cons]
    constructor
    · intro h; exact absurd h (by simp)
    · rintro ⟨-, -, h3, -⟩; omega

theorem specOctet_specLabel {l : List Char} (h : specOctet l) : specLabel l := by
  rcases h with ⟨hdig, hlen1, hlen3, -⟩
  refine ⟨hlen1, by omega, ?_, ?_, ?_⟩
  · intro c hc
    exact isAlnum_isAlnumHyphen (isDigit_isAlnum (hdig c hc))
  · intro c hc
    cases l with
    | nil => simp at hc
    | cons x xs =>
      have hx : x = c := Option.some.inj hc
      exact hx ▸ isDigit_isAlnum (hdig x (by simp))
  · intro c hc
    rcases eq_nil_or_concat_aux l with rfl | ⟨t, b, rfl⟩
    · simp at hc
    · rw [List.getLast?_concat] at hc
      have hb : b = c := Option.some.inj hc
      exact hb ▸ isDigit_isAlnum (hdig b (by simp))

theorem specOctet_ne_dot {l : List Char} (h : specOctet l) :
    ∀ c ∈ l, c ≠ '.' := by
  intro c hc
  exact isAlnumHyphen_ne_dot
    (isAlnum_isAlnumHyphen (isDigit_isAlnum (h.1 c hc)))

theorem specLabel_ne_dot {l : List Char} (h : specLabel l) :
    ∀ c ∈ l, c ≠ '.' := by
  intro c hc
  exact isAlnumHyphen_ne_dot (h.2.2.1 c hc)

/-! ### The full regexes agree with the declarative grammars -/

theorem domainTest_iff (cs : List Char) : domainTest cs = true ↔ specHostname cs := by
  constructor
  · intro h
    refine ⟨splitDots cs, splitDots_ne_nil cs, (joinDots_splitDots cs).symm, ?_⟩
    intro l hl
    exact (labelMatch_iff l).1 (List.all_eq_true.1 h l hl)
  · rintro ⟨ls, hne, rfl, hall⟩
    unfold domainTest
    rw [splitDots_joinDots ls hne (fun l hl => specLabel_ne_dot (hall l hl))]
    exact List.all_eq_true.2 (fun l hl => (labelMatch_iff l).2 (hall l hl))

theorem ipTest_iff (cs : List Char) : ipTest cs = true ↔ specIPv4 cs := by
  constructor
  · intro h
    unfold ipTest at h
    split at h
    · rename_i a b c d hs
      rw [Bool.and_eq_true, Bool.and_eq_true, Bool.and_eq_true] at h
      rcases h with ⟨⟨⟨ha, hb⟩, hc⟩, hd⟩
      refine ⟨a, b, c, d, ?_, (octetMatch_iff a).1 ha, (octetMatch_iff b).1 hb,
        (octetMatch_iff c).1 hc, (octetMatch_iff d).1 hd⟩
      rw [← hs, joinDots_splitDots]
    · exact absurd h (by simp)
  · rintro ⟨a, b, c, d, rfl, ha, hb, hc, hd⟩
    have hnodots : ∀ l ∈ [a, b, c, d], ∀ ch ∈ l, ch ≠ '.' := by
      intro l hl
      rcases List.mem_cons.1 hl with rfl | hl
      · exact specOctet_ne_dot ha
      rcases List.mem_cons.1 hl with rfl | hl
      · exact specOctet_ne_dot hb
      rcases List.mem_cons.1 hl with rfl | hl
      · exact specOctet_ne_dot hc
      rcases List.mem_cons.1 hl with rfl | hl
      · exact specOctet_ne_dot hd
      · simp at hl
    unfold ipTest
    rw [splitDots_joinDots [a, b, c, d] (by simp) hnodots]
    show (octetMatch a && octetMatch b && octetMatch c && octetMatch d) = true
    simp only [Bool.and_eq_true]
    exact ⟨⟨⟨(octetMatch_iff a).2 ha, (octetMatch_iff b).2 hb⟩,
      (octetMatch_iff c).2 hc⟩, (octetMatch_iff d).2 hd⟩

theorem ipTest_imp_domainTest {cs : List Char} (h : ipTest cs = true) :
    domainTest cs = true := by
  rcases (ipTest_iff cs).1 h with ⟨a, b, c, d, rfl, ha, hb, hc, hd⟩
  refine (domainTest_iff _).2 ⟨[a, b, c, d], by simp, rfl, ?_⟩
  intro l hl
  rcases List.mem_cons.1 hl with rfl | hl
  · exact specOctet_specLabel ha
  rcases List.mem_cons.1 hl with rfl | hl
  · exact specOctet_specLabel hb
  rcases List.mem_cons.1 hl with rfl | hl
  · exact specOctet_specLabel hc
  rcases List.mem_cons.1 hl with rfl | hl
  · exact specOctet_specLabel hd
  · simp at hl

/-- validateTarget on a string value is exactly the disjunction of the
two anchored regex tests (the emptiness guard is redundant because both
regexes reject the empty string). -/
theorem validateTarget_strV (s : String) :
    validateTarget (JSValue.strV s) = (domainTest s.data || ipTest s.data) := by
  by_cases h : s.data = []
  · simp [validateTarget, jsTruthy, isStringV, asString, h, domainTest, ipTest,
      splitDots, labelMatch, octetMatch]
  · simp [validateTarget, jsTruthy, isStringV, asString, List.isEmpty_eq_true, h]

example : validateTarget (JSValue.strV "192.168.1.1") = true := by decide
example : validateTarget (JSValue.strV "256.1.1.1") = true := by decide
example : validateTarget (JSValue.strV "-bad.com") = false := by decide
example : validateTarget (JSValue.strV "good-host.example.com") = true := by decide
example : validateTarget (JSValue.strV "") = false := by decide
example : validateTarget (JSValue.strV "a.com; rm -rf /") = false := by decide
example : validateTarget (JSValue.numV 123) = false := by decide

/-! ### Helper lemmas about the handlers -/

theorem runCommand_timeout (behavior : String → ProcessBehavior) (command : String)
    (timeout : Nat) (now : String)
    (hspawn : (behavior command).spawnError = none)
    (hdur : timeout < (behavior command).duration) :
    runCommand behavior command timeout now
      = Except.error ⟨false, none, some ("Command timed out: " ++ command), some now⟩ := by
  simp [runCommand, execOutcome, hspawn, hdur]

theorem pingHandler_commands (isWindows : Bool) (target : JSValue)
    (behavior : String → ProcessBehavior) (now : String)
    (hv : validateTarget target = true) :
    (pingHandler isWindows target behavior now).2
      = [(pingCommand isWindows (asString target), 30000)] := by
  rcases hr : runCommand behavior (pingCommand isWindows (asString target)) 30000 now with b | b <;>
    simp [pingHandler, hv, hr]

theorem tracerouteHandler_commands (isWindows : Bool) (target : JSValue)
    (behavior : String → ProcessBehavior) (now : String)
    (hv : validateTarget target = true) :
    (tracerouteHandler isWindows target behavior now).2
      = [(tracerouteCommand isWindows (asString target), 60000)] := by
  rcases hr : runCommand behavior (tracerouteCommand isWindows (asString target)) 60000 now with b | b <;>
    simp [tracerouteHandler, hv, hr]

/-! ### The claims -/

/-- Claim C1, as frozen, asserts that validateTarget rejects 256.1.1.1.
The code accepts it: the hostname regex admits the all-digit labels 256,
1, 1, 1, so validateTarget returns true. -/
theorem claim_C1_counterexample :
    validateTarget (JSValue.strV "256.1.1.1") = true := by decide

/-- Claim C1 (amended): for every string S, validateTarget accepts S
exactly when S matches the hostname grammar or the IPv4 grammar in
full; in particular 256.1.1.1 is accepted (its all-digit pieces are
valid hostname labels), 192.168.1.1 is accepted, -bad.com is rejected
and good-host.example.com is accepted. -/
theorem claim_C1 :
    (∀ s : String, validateTarget (JSValue.strV s) = true ↔
      (specHostname s.data ∨ specIPv4 s.data))
    ∧ validateTarget (JSValue.strV "256.1.1.1") = true
    ∧ validateTarget (JSValue.strV "192.168.1.1") = true
    ∧ validateTarget (JSValue.strV "-bad.com") = false
    ∧ validateTarget (JSValue.strV "good-host.example.com") = true := by
  refine ⟨?_, by decide, by decide, by decide, by decide⟩
  intro s
  rw [validateTarget_strV, Bool.or_eq_true, domainTest_iff, ipTest_iff]

theorem claim_C1_witness :
    specHostname "good-host.example.com".data ∨ specIPv4 "good-host.example.com".data :=
  (claim_C1.1 "good-host.example.com").mp (by decide)

/-- Claim C2: whenever validateTarget accepts a string, every character
of the string is a letter, a digit, a dot or a hyphen, so no shell
metacharacter, whitespace or quote can reach the concatenated command
string. -/
theorem claim_C2 (s : String) (h : validateTarget (JSValue.strV s) = true) :
    ∀ c ∈ s.data, safeChar c = true := by
  rw [validateTarget_strV, Bool.or_eq_true] at h
  have hdom : domainTest s.data = true := by
    rcases h with h | h
    · exact h
    · exact ipTest_imp_domainTest h
  rcases (domainTest_iff _).1 hdom with ⟨ls, -, heq, hall⟩
  intro c hc
  rw [heq] at hc
  rcases mem_joinDots ls c hc with rfl | ⟨l, hl, hcl⟩
  · decide
  · have hch := (hall l hl).2.2.1 c hcl
    simp only [isAlnumHyphen, Bool.or_eq_true] at hch
    rcases hch with h1 | h1 <;> simp [safeChar, h1]

theorem claim_C2_witness : safeChar '-' = true :=
  claim_C2 "a-9.b" (by decide) '-' (by decide)

/-- Claim C3: when validateTarget rejects the target, both handlers
answer 400 with the invalid-target body and hand no command at all to
the Command Runner. -/
theorem claim_C3 (isWindows : Bool) (target : JSValue)
    (behavior : String → ProcessBehavior) (now : String)
    (h : validateTarget target = false) :
    pingHandler isWindows target behavior now = (⟨400, invalidTargetBody⟩, [])
    ∧ tracerouteHandler isWindows target behavior now = (⟨400, invalidTargetBody⟩, []) := by
  constructor <;> simp [pingHandler, tracerouteHandler, h]

theorem claim_C3_witness :
    pingHandler false (JSValue.strV "a.com; rm -rf /") (fun _ => ⟨none, 0, 0, "", ""⟩) "t"
      = (⟨400, invalidTargetBody⟩, [])
    ∧ tracerouteHandler false (JSValue.strV "a.com; rm -rf /") (fun _ => ⟨none, 0, 0, "", ""⟩) "t"
      = (⟨400, invalidTargetBody⟩, []) :=
  claim_C3 false (JSValue.strV "a.com; rm -rf /") (fun _ => ⟨none, 0, 0, "", ""⟩) "t" (by decide)

/-- Claim C4: when exec reports a failure (non-zero exit, kill at the
deadline or spawn failure), runCommand rejects — it does not resolve —
with an envelope of shape success false, the error message and the
timestamp; the ping handler catches exactly that envelope as its 500
response; and the handler always produces one of the statuses 400, 200
or 500, so no process error escapes as an unhandled fault. -/
theorem claim_C4 (behavior : String → ProcessBehavior) (command : String)
    (timeout : Nat) (now msg : String)
    (h : (execOutcome (behavior command) command timeout).error = some msg) :
    runCommand behavior command timeout now
      = Except.error ⟨false, none, some msg, some now⟩
    ∧ (∀ isWindows target, validateTarget target = true →
        command = pingCommand isWindows (asString target) → timeout = 30000 →
        pingHandler isWindows target behavior now
          = (⟨500, ⟨false, none, some msg, some now⟩⟩, [(command, 30000)]))
    ∧ (∀ isWindows target,
        (pingHandler isWindows target behavior now).1.status = 400 ∨
        (pingHandler isWindows target behavior now).1.status = 200 ∨
        (pingHandler isWindows target behavior now).1.status = 500) := by
  have hrun : runCommand behavior command timeout now
      = Except.error ⟨false, none, some msg, some now⟩ := by
    simp [runCommand, h]
  refine ⟨hrun, ?_, ?_⟩
  · intro isWindows target hv hcmd htmo
    subst hcmd
    subst htmo
    simp [pingHandler, hv, hrun]
  · intro isWindows target
    by_cases hv : validateTarget target = true
    · rcases hr : runCommand behavior (pingCommand isWindows (asString target)) 30000 now with b | b <;>
        simp [pingHandler, hv, hr]
    · have hv2 : validateTarget target = false := by
        cases hval : validateTarget target
        · rfl
        · exact absurd hval hv
      simp [pingHandler, hv2]

theorem claim_C4_witness :
    runCommand (fun _ => ⟨some "spawn ENOENT", 0, 0, "", ""⟩) "ping -c 4 8.8.8.8" 30000 "t"
      = Except.error ⟨false, none, some "spawn ENOENT", some "t"⟩ :=
  (claim_C4 (fun _ => ⟨some "spawn ENOENT", 0, 0, "", ""⟩) "ping -c 4 8.8.8.8" 30000 "t"
    "spawn ENOENT" (by decide)).1

/-- Claim C5: when the process spawns, finishes within the deadline and
exits with code zero, runCommand resolves with success true, output
equal to standard output when nonempty and standard error otherwise,
and the timestamp. -/
theorem claim_C5 (behavior : String → ProcessBehavior) (command : String)
    (timeout : Nat) (now : String)
    (hspawn : (behavior command).spawnError = none)
    (hdur : (behavior command).duration ≤ timeout)
    (hexit : (behavior command).exitCode = 0) :
    runCommand behavior command timeout now
      = Except.ok ⟨true,
          some (if (behavior command).stdout = "" then (behavior command).stderr
                else (behavior command).stdout),
          none, some now⟩ := by
  simp [runCommand, execOutcome, hspawn, hexit, Nat.not_lt.2 hdur]

theorem claim_C5_witness :
    runCommand (fun _ => ⟨none, 5, 0, "PING ok", "noise"⟩) "ping -c 4 8.8.8.8" 30000 "t"
      = Except.ok ⟨true, some "PING ok", none, some "t"⟩ := by
  rw [claim_C5 (fun _ => ⟨none, 5, 0, "PING ok", "noise"⟩) "ping -c 4 8.8.8.8" 30000 "t"
    rfl (by decide) rfl]
  rfl

/-- Claim C6: every ping execution is handed to the Command Runner with
the 30000 ms deadline and every traceroute execution with the 60000 ms
one; a process that would outlive its deadline surfaces as an ordinary
500 failure envelope whose message references the timeout, not as an
unhandled rejection. -/
theorem claim_C6 (isWindows : Bool) (target : JSValue)
    (behavior : String → ProcessBehavior) (now : String)
    (hv : validateTarget target = true) :
    (pingHandler isWindows target behavior now).2
      = [(pingCommand isWindows (asString target), 30000)]
    ∧ (tracerouteHandler isWindows target behavior now).2
      = [(tracerouteCommand isWindows (asString target), 60000)]
    ∧ ((behavior (pingCommand isWindows (asString target))).spawnError = none →
       30000 < (behavior (pingCommand isWindows (asString target))).duration →
       pingHandler isWindows target behavior now
         = (⟨500, ⟨false, none,
             some ("Command timed out: " ++ pingCommand isWindows (asString target)),
             some now⟩⟩, [(pingCommand isWindows (asString target), 30000)]))
    ∧ ((behavior (tracerouteCommand isWindows (asString target))).spawnError = none →
       60000 < (behavior (tracerouteCommand isWindows (asString target))).duration →
       tracerouteHandler isWindows target behavior now
         = (⟨500, ⟨false, none,
             some ("Command timed out: " ++ tracerouteCommand isWindows (asString target)),
             some now⟩⟩, [(tracerouteCommand isWindows (asString target), 60000)])) := by
  refine ⟨pingHandler_commands isWindows target behavior now hv,
    tracerouteHandler_commands isWindows target behavior now hv, ?_, ?_⟩
  · intro hspawn hdur
    simp [pingHandler, hv, runCommand_timeout _ _ _ _ hspawn hdur]
  · intro hspawn hdur
    simp [tracerouteHandler, hv, runCommand_timeout _ _ _ _ hspawn hdur]

theorem claim_C6_witness :
    pingHandler false (JSValue.strV "example.com") (fun _ => ⟨none, 100000, 0, "", ""⟩) "t"
      = (⟨500, ⟨false, none,
          some ("Command timed out: " ++ pingCommand false "example.com"), some "t"⟩⟩,
         [(pingCommand false "example.com", 30000)]) :=
  (claim_C6 false (JSValue.strV "example.com") (fun _ => ⟨none, 100000, 0, "", ""⟩) "t"
    (by decide)).2.2.1 rfl (by decide)

/-- Claim C7: for every validated target the executed command is exactly
a fixed platform template followed by the target text: ping -c 4 or
ping -n 4, traceroute or tracert. The template depends only on the
platform flag, a constant of the running process, so although the source
reads process.platform inside each handler, every call of one process
resolves the branch to the same template as a single resolution at
start-up would. -/
theorem claim_C7 (isWindows : Bool) (target : JSValue)
    (behavior : String → ProcessBehavior) (now : String)
    (hv : validateTarget target = true) :
    (pingHandler isWindows target behavior now).2
      = [((if isWindows then "ping -n 4 " else "ping -c 4 ") ++ asString target, 30000)]
    ∧ (tracerouteHandler isWindows target behavior now).2
      = [((if isWindows then "tracert " else "traceroute ") ++ asString target, 60000)] := by
  have hp : pingCommand isWindows (asString target)
      = (if isWindows then "ping -n 4 " else "ping -c 4 ") ++ asString target := by
    cases isWindows <;> rfl
  have ht : tracerouteCommand isWindows (asString target)
      = (if isWindows then "tracert " else "traceroute ") ++ asString target := by
    cases isWindows <;> rfl
  rw [← hp, ← ht]
  exact ⟨pingHandler_commands isWindows target behavior now hv,
    tracerouteHandler_commands isWindows target behavior now hv⟩

theorem claim_C7_witness :
    (pingHandler false (JSValue.strV "example.com") (fun _ => ⟨none, 0, 0, "", ""⟩) "t").2
      = [((if false then "ping -n 4 " else "ping -c 4 ") ++ asString (JSValue.strV "example.com"), 30000)]
    ∧ (tracerouteHandler false (JSValue.strV "example.com") (fun _ => ⟨none, 0, 0, "", ""⟩) "t").2
      = [((if false then "tracert " else "traceroute ") ++ asString (JSValue.strV "example.com"), 60000)] :=
  claim_C7 false (JSValue.strV "example.com") (fun _ => ⟨none, 0, 0, "", ""⟩) "t" (by decide)

/-- Claim C8: validateTarget returns false on undefined, on the number
123 and on the empty string, and on every value of every modelled type
it terminates with a boolean — it never throws. -/
theorem claim_C8 :
    validateTarget JSValue.undefined = false
    ∧ validateTarget (JSValue.numV 123) = false
    ∧ validateTarget (JSValue.strV "") = false
    ∧ ∀ v : JSValue, validateTarget v = true ∨ validateTarget v = false := by
  refine ⟨by decide, by decide, by decide, ?_⟩
  intro v
  cases h : validateTarget v
  · exact Or.inr rfl
  · exact Or.inl rfl

/-- Claim C9: validateTarget is deterministic and stateless — in any
sequence of calls, two calls that receive the same argument return the
same boolean, no matter which other calls occur around them. -/
theorem claim_C9 (calls : List JSValue) (i j : Nat) (v : JSValue)
    (hi : calls[i]? = some v) (hj : calls[j]? = some v) :
    (calls.map validateTarget)[i]? = (calls.map validateTarget)[j]? := by
  rw [List.getElem?_map, List.getElem?_map, hi, hj]

theorem claim_C9_witness :
    ([JSValue.strV "a", JSValue.numV 0, JSValue.strV "a"].map validateTarget)[0]?
      = ([JSValue.strV "a", JSValue.numV 0, JSValue.strV "a"].map validateTarget)[2]? :=
  claim_C9 [JSValue.strV "a", JSValue.numV 0, JSValue.strV "a"] 0 2 (JSValue.strV "a") rfl rfl

/-- Claim C10: the IPv4 branch of validateTarget is redundant — every
character list accepted in full by the IPv4 regex is accepted by the
hostname regex, so validateTarget on a string equals the hostname test
alone. -/
theorem claim_C10 :
    (∀ cs : List Char, ipTest cs = true → domainTest cs = true)
    ∧ ∀ s : String, validateTarget (JSValue.strV s) = domainTest s.data := by
  refine ⟨fun cs h => ipTest_imp_domainTest h, ?_⟩
  intro s
  rw [validateTarget_strV]
  cases hd : domainTest s.data
  · cases hi : ipTest s.data
    · rfl
    · exact absurd (ipTest_imp_domainTest hi) (by simp [hd])
  · rfl

theorem claim_C10_witness : domainTest "1.2.3.4".data = true :=
  claim_C10.1 "1.2.3.4".data (by decide)
